import Mathlib

/-!
# Verification of `agentic_validator.py`

A shallow embedding of the single-file Python tool `agentic_validator.py`
(a lightweight code-quality validator) together with proofs about it.

Modelling conventions:
* A path is its list of segments (`Path.parts` in Python); a resolved
  absolute root is likewise a list of segments.
* A line of text is a `List Char`; file text (after `str.splitlines()`)
  is a `List (List Char)`.
* Machine-facing effects (reading a file, `ast.parse`, `Path.glob`,
  `has_tests`, the pytest subprocess) are supplied by an environment:
  the decoded text of a file is given together with the outcome of the
  parser on it, and the glob expansion of the walker is given as a list
  of hits.
* Python integers are `Int`; line numbers are `Nat`.
-/

/-- A single quote character, used inside issue messages. -/
def squote : String := String.singleton (Char.ofNat 39)

/-- The `Issue` dataclass: one reported problem (`path`, `line`, `kind`, `message`).
`line = 0` means file-level. -/
structure Issue where
  path : String
  line : Nat
  kind : String
  message : String
deriving DecidableEq, Repr

/-- Format an issue as `path:line: kind: message`, dropping `:line` when `line = 0`. -/
def Issue.format (i : Issue) : String :=
  if i.line > 0 then
    i.path ++ ":" ++ toString i.line ++ ": " ++ i.kind ++ ": " ++ i.message
  else
    i.path ++ ": " ++ i.kind ++ ": " ++ i.message

/-- The `CheckConfig` dataclass: the resolved configuration of one run.
`root` is the resolved absolute root path, as its list of segments. -/
structure CheckConfig where
  root : List String
  includePatterns : List String
  exclude : List String
  max_line_length : Int
  max_function_length : Int
  run_tests : Bool
deriving DecidableEq, Repr

/-- The set `DEFAULT_EXCLUDES`, in the sorted order `parse_args` uses
(`sorted(DEFAULT_EXCLUDES)`). -/
def default_excludes_sorted : List String :=
  [".git", ".venv", "__pycache__", "build", "dist", "env", "node_modules", "venv"]

/-- Command-line input to `parse_args`: the user-supplied repeatable option
values in order, the resolved `--root`, and the numeric/boolean options. -/
structure CliArgs where
  root : List String
  include_args : List String
  exclude_args : List String
  max_line_length : Int
  max_function_length : Int
  run_tests : Bool

/-- Model of `parse_args`. Both `--include` and `--exclude` use argparse `action="append"`
with a list default, and argparse appends user-supplied values to the default
list itself, so `args.include = ["**/*.py"] ++ user values` and
`args.exclude = sorted(DEFAULT_EXCLUDES) ++ user values`. The subsequent
`args.include if args.include else ["**/*.py"]` (and the analogous line for
exclude) is kept verbatim. -/
def parse_args (a : CliArgs) : CheckConfig :=
  let inc := ["**/*.py"] ++ a.include_args
  let exc := default_excludes_sorted ++ a.exclude_args
  { root := a.root
    includePatterns := if inc.isEmpty then ["**/*.py"] else inc
    exclude := if exc.isEmpty then [] else exc
    max_line_length := a.max_line_length
    max_function_length := a.max_function_length
    run_tests := a.run_tests }

/-- One per-line pass of `check_file` (the body of the `for idx, line in
enumerate(lines, start=1)` loop): the four rules, each appending
independently. -/
def checkLine (path : String) (cfg : CheckConfig) (idx : Nat) (line : List Char) : List Issue :=
  (if line.contains (Char.ofNat 9) then [⟨path, idx, "style", "tab character"⟩] else []) ++
  (if (line.length : Int) > cfg.max_line_length then
    [⟨path, idx, "style",
      "line too long (" ++ toString (line.length : Int) ++ " > " ++
        toString cfg.max_line_length ++ ")"⟩]
   else []) ++
  (if rstripSpaces line ≠ line then [⟨path, idx, "style", "trailing whitespace"⟩] else []) ++
  (if ("TODO".toList <:+: line) ∨ ("FIXME".toList <:+: line) then
    [⟨path, idx, "note", "TODO/FIXME present"⟩]
   else [])
where
  /-- Python `line.rstrip(" ")`: remove trailing space characters (only spaces). -/
  rstripSpaces (l : List Char) : List Char :=
    (l.reverse.dropWhile (fun c => c = ' ')).reverse

/-- All line-level issues of a decoded file, lines numbered from 1. -/
def scanLines (path : String) (cfg : CheckConfig) (lines : List (List Char)) : List Issue :=
  ((lines.enumFrom 1).map (fun p => checkLine path cfg p.1 p.2)).flatten

/-- An `ast.FunctionDef` / `ast.AsyncFunctionDef` node as the analyzer sees
it: its name, `lineno` and `end_lineno` (optional, as in the CPython AST
API). -/
structure FuncNode where
  name : String
  lineno : Option Nat
  end_lineno : Option Nat
deriving DecidableEq, Repr

/-- Outcome of `ast.parse` on the text of the file, supplied by the environment:
either a `SyntaxError` (with its optional `lineno` and its message), or the
parsed tree, given as the list of all `FunctionDef`/`AsyncFunctionDef` nodes
in `ast.walk` order (this includes async and nested definitions). -/
inductive ParseOutcome where
  | syntax_error (lineno : Option Nat) (msg : String)
  | parsed (funcs : List FuncNode)
deriving DecidableEq, Repr

/-- Outcome of `path.read_text(encoding="utf-8")`, supplied by the
environment: a `UnicodeDecodeError`, or the decoded text given as its
`splitlines()` decomposition together with the outcome of the parser on it. -/
inductive ReadOutcome where
  | decode_error
  | ok (lines : List (List Char)) (parse : ParseOutcome)
deriving DecidableEq, Repr

/-- Model of `check_function_lengths`: walk the function nodes, skip those lacking
`lineno`/`end_lineno`, report each whose span `end_lineno - lineno + 1`
exceeds `max_len`. -/
def check_function_lengths (path : String) (funcs : List FuncNode) (max_len : Int) :
    List Issue :=
  (funcs.map (fun node =>
    match node.end_lineno, node.lineno with
    | some e, some l =>
      let length : Int := (e : Int) - (l : Int) + 1
      if length > max_len then
        [⟨path, l, "maintainability",
          "function " ++ squote ++ node.name ++ squote ++ " too long (" ++
            toString length ++ " > " ++ toString max_len ++ ")"⟩]
      else []
    | _, _ => [])).flatten

/-- Model of `check_file`: on decode failure one `encoding` issue and stop; otherwise
the per-line scan, then on parse failure append one `syntax` issue (at the
`lineno` of the error, or 0) and stop; otherwise append the function-length
issues. -/
def check_file (path : String) (read : ReadOutcome) (cfg : CheckConfig) : List Issue :=
  match read with
  | .decode_error => [⟨path, 0, "encoding", "not utf-8"⟩]
  | .ok lines parse =>
    let issues := scanLines path cfg lines
    match parse with
    | .syntax_error lineno msg => issues ++ [⟨path, lineno.getD 0, "syntax", msg⟩]
    | .parsed funcs => issues ++ check_function_lengths path funcs cfg.max_function_length

/-!
## Path filtering (`_is_excluded`, `iter_files`) and `fnmatch`

Python `fnmatch.fnmatch(name, pattern)` is modelled after the CPython
function `fnmatch.translate`: `*` matches any run of characters (including path
separators), `?` any single character, `[seq]` / `[!seq]` a character
class with ranges; an unterminated `[` is a literal `[`.
-/

/-- One token of a compiled shell-style glob pattern. -/
inductive GlobTok where
  | lit (c : Char)
  | star
  | anyChar
  | cls (neg : Bool) (body : List Char)
deriving DecidableEq, Repr

/-- Scan forward to the closing `]` of a character class; returns the class
body and the remainder after the `]`, or `none` when unterminated. -/
def findCloseBracket : List Char → Option (List Char × List Char)
  | [] => none
  | c :: rest =>
    if c = ']' then some ([], rest)
    else
      match findCloseBracket rest with
      | some (body, after) => some (c :: body, after)
      | none => none

theorem findCloseBracket_length {cs body after : List Char}
    (h : findCloseBracket cs = some (body, after)) : after.length < cs.length := by
  induction cs generalizing body after with
  | nil => simp [findCloseBracket] at h
  | cons c rest ih =>
    by_cases hc : c = ']'
    · simp [findCloseBracket, hc] at h
      simp [← h.2]
    · simp only [findCloseBracket, if_neg hc] at h
      cases hfc : findCloseBracket rest with
      | none => simp [hfc] at h
      | some p =>
        obtain ⟨b, a⟩ := p
        rw [hfc] at h
        simp at h
        obtain ⟨h1, h2⟩ := h
        subst h2
        have hl := ih hfc
        simp [List.length_cons]
        omega

/-- Strip a leading negation marker `!` from a class body. -/
def stripNeg (cs : List Char) : Bool × List Char :=
  match cs with
  | '!' :: t => (true, t)
  | _ => (false, cs)

theorem stripNeg_length (cs : List Char) : (stripNeg cs).2.length ≤ cs.length := by
  unfold stripNeg
  split
  · simp
  · simp

/-- A `]` in first position of a class body is a literal member of the class. -/
def stripFirstRB (cs : List Char) : List Char × List Char :=
  match cs with
  | ']' :: t => ([']'], t)
  | _ => ([], cs)

theorem stripFirstRB_length (cs : List Char) : (stripFirstRB cs).2.length ≤ cs.length := by
  unfold stripFirstRB
  split
  · simp
  · simp

/-- Parse a character class immediately after a `[`: an optional leading `!`
negates; a `]` right after that is part of the class. Returns
`(negated, body, rest)`, or `none` when the class is unterminated. -/
def parseBracket (cs : List Char) : Option (Bool × List Char × List Char) :=
  let p1 := stripNeg cs
  let p2 := stripFirstRB p1.2
  match findCloseBracket p2.2 with
  | some q => some (p1.1, p2.1 ++ q.1, q.2)
  | none => none

theorem parseBracket_length {cs : List Char} {neg : Bool} {body after : List Char}
    (h : parseBracket cs = some (neg, body, after)) : after.length < cs.length := by
  simp only [parseBracket] at h
  cases hfc : findCloseBracket (stripFirstRB (stripNeg cs).2).2 with
  | none => rw [hfc] at h; simp at h
  | some q =>
    rw [hfc] at h
    simp at h
    have h1 := findCloseBracket_length hfc
    have h2 := stripFirstRB_length (stripNeg cs).2
    have h3 := stripNeg_length cs
    have := h.2.2
    subst this
    omega

/-- Compile a glob pattern to tokens (after CPython `fnmatch.translate`). -/
def compileGlob : List Char → List GlobTok
  | [] => []
  | '*' :: rest => .star :: compileGlob rest
  | '?' :: rest => .anyChar :: compileGlob rest
  | '[' :: rest =>
    match h : parseBracket rest with
    | some (neg, body, after) => .cls neg body :: compileGlob after
    | none => .lit '[' :: compileGlob rest
  | c :: rest => .lit c :: compileGlob rest
termination_by cs => cs.length
decreasing_by
  all_goals simp [List.length_cons]
  · exact Nat.lt_succ_of_lt (parseBracket_length h)

/-- Does a character class body (ranges allowed, `a-` and `-a` literal)
match a character. -/
def matchSet : List Char → Char → Bool
  | a :: '-' :: b :: rest, c => (decide (a ≤ c) && decide (c ≤ b)) || matchSet rest c
  | a :: rest, c => decide (a = c) || matchSet rest c
  | [], _ => false

/-- Match compiled glob tokens against a character list. `star` may absorb
any run of characters, path separators included, as in `fnmatch`. -/
def matchToks : List GlobTok → List Char → Bool
  | [], [] => true
  | [], _ :: _ => false
  | .star :: ts, [] => matchToks ts []
  | .star :: ts, c :: s => matchToks ts (c :: s) || matchToks (.star :: ts) s
  | .anyChar :: ts, _ :: s => matchToks ts s
  | .anyChar :: _, [] => false
  | .lit c :: ts, d :: s => decide (c = d) && matchToks ts s
  | .lit _ :: _, [] => false
  | .cls neg body :: ts, d :: s => (matchSet body d != neg) && matchToks ts s
  | .cls _ _ :: _, [] => false
termination_by ts s => (s.length, ts.length)

/-- Python `fnmatch.fnmatch(name, pattern)` (case-sensitive platform). -/
def fnmatch (name pattern : String) : Bool :=
  matchToks (compileGlob pattern.toList) name.toList

/-- Python `str(path.relative_to(root))` for a path given by its segments, assuming
the path lies strictly under `root` (which holds for every glob hit). -/
def relPath (root parts : List String) : String :=
  String.intercalate "/" (parts.drop root.length)

/-- Model of `_is_excluded`: some segment of the (absolute) path is a literal member
of the exclude list, or the root-relative path `fnmatch`-matches some
exclude entry. -/
def is_excluded (parts : List String) (cfg : CheckConfig) : Bool :=
  parts.any (fun part => cfg.exclude.contains part) ||
  cfg.exclude.any (fun pattern => fnmatch (relPath cfg.root parts) pattern)

/-- One hit of expanding the include patterns with `config.root.glob`:
its path relative to root (as segments), whether it is a regular file, and
the outcome of reading it. -/
structure FileEntry where
  rel_parts : List String
  is_file : Bool
  read : ReadOutcome
deriving Repr

/-- Model of `iter_files` over the environment-supplied glob expansion `hits` of the
include patterns: keep regular files that are not excluded. -/
def iter_files (cfg : CheckConfig) (hits : List FileEntry) : List FileEntry :=
  hits.filter (fun e => e.is_file && !(is_excluded (cfg.root ++ e.rel_parts) cfg))

/-!
## Test runner, reporter and `main`

`has_tests(root)` inspects the filesystem and `run_pytest(root)` runs a
subprocess, so the environment supplies their results (`has_tests` as a
`Bool`, the pytest return code as an `Int`).
-/

/-- Environment of one run: whether the resolved root exists, the glob
expansion of the include patterns under root (in the sorted order `main`
iterates, i.e. `sorted(iter_files(config))` input), the result of
`has_tests(config.root)`, and the return code `run_pytest(config.root)`
would produce. -/
structure RunEnv where
  root_exists : Bool
  glob_hits : List FileEntry
  has_tests : Bool
  pytest_exit : Int

/-- The `test_status` value `main` computes: `None` unless `--run-tests`;
with `--run-tests`, the pytest exit code when tests are detected, else `0`
without invoking any subprocess. -/
def test_status_of (cfg : CheckConfig) (env : RunEnv) : Option Int :=
  if cfg.run_tests then
    (if env.has_tests then some env.pytest_exit else some 0)
  else none

/-- The string of an absolute path given by its segments. -/
def pathStr (parts : List String) : String :=
  "/" ++ String.intercalate "/" parts

/-- The issue sequence `main` collects: `check_file` over the filtered
walk, concatenated in order. -/
def collect_issues (cfg : CheckConfig) (env : RunEnv) : List Issue :=
  ((iter_files cfg env.glob_hits).map
    (fun e => check_file (pathStr (cfg.root ++ e.rel_parts)) e.read cfg)).flatten

/-- The body of `render_markdown` as its list of lines (the `lines` list the
source builds before joining with newlines). -/
def render_lines (issues : List Issue) (test_status : Option Int) : List String :=
  let head :=
    ["# Agentic Validator Report", "",
     "- Issues: " ++ toString issues.length,
     (match test_status with
      | none => "- Tests: not run"
      | some s => "- Tests: exit code " ++ toString s),
     ""]
  if issues.isEmpty then
    head ++ ["No issues found."]
  else
    head ++ ["## Issues"] ++ issues.map (fun i => "- " ++ i.format)

/-- Model of `render_markdown`: the joined report text. -/
def render_markdown (issues : List Issue) (test_status : Option Int) : String :=
  String.intercalate "\n" (render_lines issues test_status)

/-- Model of `main`, as (exit code, rendered report if one was printed): missing root
short-circuits to exit code 2 with no report; otherwise scan, compute the
test status, render, and return 1 on any issue, else a non-zero test status,
else 0. -/
def main_run (cfg : CheckConfig) (env : RunEnv) : Int × Option String :=
  if !env.root_exists then (2, none)
  else
    let issues := collect_issues cfg env
    let ts := test_status_of cfg env
    let report := render_markdown issues ts
    let code : Int :=
      if !issues.isEmpty then 1
      else
        match ts with
        | none => 0
        | some s => if s ≠ 0 then s else 0
    (code, some report)

/-!
## Helper lemmas

Lengths of rendered numbers (used to separate the `line too long` message
from the fixed messages), and a characterization of the `rstrip(" ")`
test.
-/

theorem toDigitsCore_length_le (b : Nat) (fuel : Nat) :
    ∀ (n : Nat) (ds : List Char), ds.length ≤ (Nat.toDigitsCore b fuel n ds).length := by
  induction fuel with
  | zero => intro n ds; simp [Nat.toDigitsCore]
  | succ f ih =>
    intro n ds
    simp only [Nat.toDigitsCore]
    split
    · simp
    · exact Nat.le_trans (Nat.le_succ _) (ih (n / b) (Nat.digitChar (n % b) :: ds))

theorem one_le_toDigits_length (b n : Nat) : 1 ≤ (Nat.toDigits b n).length := by
  have : Nat.toDigits b n = Nat.toDigitsCore b (n + 1) n [] := rfl
  rw [this]
  simp only [Nat.toDigitsCore]
  split
  · simp
  · exact Nat.le_trans (by simp) (toDigitsCore_length_le b n (n / b) [Nat.digitChar (n % b)])

theorem one_le_natRepr_length (n : Nat) : 1 ≤ (Nat.repr n).length := by
  have h : (Nat.repr n).length = (Nat.toDigits 10 n).length := rfl
  rw [h]
  exact one_le_toDigits_length 10 n

theorem one_le_intToString_length (i : Int) : 1 ≤ (toString i).length := by
  cases i with
  | ofNat m =>
    have h : toString (Int.ofNat m) = Nat.repr m := rfl
    rw [h]
    exact one_le_natRepr_length m
  | negSucc m =>
    have h : toString (Int.negSucc m) = "-" ++ Nat.repr (m + 1) := rfl
    rw [h, String.length_append]
    have := one_le_natRepr_length (m + 1)
    omega

theorem long_msg_length (x y : Int) :
    21 ≤ ("line too long (" ++ toString x ++ " > " ++ toString y ++ ")").length := by
  simp only [String.length_append]
  have hx := one_le_intToString_length x
  have hy := one_le_intToString_length y
  have h1 : "line too long (".length = 15 := by decide
  have h2 : " > ".length = 3 := by decide
  have h3 : ")".length = 1 := by decide
  omega

theorem long_msg_ne_tw (x y : Int) :
    ("line too long (" ++ toString x ++ " > " ++ toString y ++ ")") ≠
      "trailing whitespace" := by
  intro h
  have hlen := long_msg_length x y
  rw [h] at hlen
  have : "trailing whitespace".length = 19 := by decide
  omega

theorem long_msg_ne_tab (x y : Int) :
    ("line too long (" ++ toString x ++ " > " ++ toString y ++ ")") ≠
      "tab character" := by
  intro h
  have hlen := long_msg_length x y
  rw [h] at hlen
  have : "tab character".length = 13 := by decide
  omega

theorem dropWhile_eq_self_iff_head (p : Char → Bool) (r : List Char) :
    List.dropWhile p r = r ↔ ∀ c, r.head? = some c → ¬ p c := by
  cases r with
  | nil => simp
  | cons c t =>
    simp only [List.dropWhile_cons, List.head?_cons]
    by_cases hp : p c
    · simp only [hp, if_pos rfl, if_true]
      constructor
      · intro h
        have hle := (List.dropWhile_suffix p (l := t)).sublist.length_le
        rw [h] at hle
        simp at hle
      · intro h
        exact absurd hp (h c rfl)
    · simp [hp]

theorem rstripSpaces_ne_iff (l : List Char) :
    checkLine.rstripSpaces l ≠ l ↔ l.getLast? = some ' ' := by
  unfold checkLine.rstripSpaces
  rw [ne_eq, List.reverse_eq_iff]
  rw [dropWhile_eq_self_iff_head, List.head?_reverse]
  constructor
  · intro h
    by_contra hne
    apply h
    intro c hc
    simp only [decide_eq_true_eq]
    intro rfl_c
    exact hne (by rw [hc, rfl_c])
  · intro h hall
    have := hall ' ' h
    simp at this

theorem checkLine_kind {path : String} {cfg : CheckConfig} {idx : Nat}
    {line : List Char} {i : Issue} (h : i ∈ checkLine path cfg idx line) :
    i.kind = "style" ∨ i.kind = "note" := by
  unfold checkLine at h
  simp only [List.mem_append] at h
  rcases h with ((h | h) | h) | h <;> (split at h <;> simp_all)

theorem scanLines_kind {path : String} {cfg : CheckConfig}
    {lines : List (List Char)} {i : Issue} (h : i ∈ scanLines path cfg lines) :
    i.kind = "style" ∨ i.kind = "note" := by
  unfold scanLines at h
  simp only [List.mem_flatten, List.mem_map] at h
  obtain ⟨_, ⟨p, _, rfl⟩, hi⟩ := h
  exact checkLine_kind hi

theorem scanLines_countP_notStyleNote {path : String} {cfg : CheckConfig}
    {lines : List (List Char)} {k : String}
    (hk1 : k ≠ "style") (hk2 : k ≠ "note") :
    (scanLines path cfg lines).countP (fun i => i.kind == k) = 0 := by
  rw [List.countP_eq_zero]
  intro i hi
  rcases scanLines_kind hi with h | h <;> simp [h, hk1.symm, hk2.symm]

/-!
## Claims C2, C3, C4: `check_file` error handling and function lengths
-/

/-- C2: on a parse failure `check_file` emits exactly one issue of kind
`syntax`, carrying the line number reported by the parser (or 0 when
unavailable) and the message of the parser, and zero `maintainability` issues — the per-line scan
still runs (over arbitrary line content), but function-length analysis is
short-circuited. -/
theorem syntax_failure_single_issue (path : String) (cfg : CheckConfig)
    (lines : List (List Char)) (lineno : Option Nat) (msg : String) :
    check_file path (.ok lines (.syntax_error lineno msg)) cfg =
      scanLines path cfg lines ++ [⟨path, lineno.getD 0, "syntax", msg⟩] ∧
    (check_file path (.ok lines (.syntax_error lineno msg)) cfg).countP
      (fun i => i.kind == "syntax") = 1 ∧
    (check_file path (.ok lines (.syntax_error lineno msg)) cfg).countP
      (fun i => i.kind == "maintainability") = 0 := by
  refine ⟨rfl, ?_, ?_⟩
  · show (scanLines path cfg lines ++
        [Issue.mk path (lineno.getD 0) "syntax" msg]).countP (fun i => i.kind == "syntax") = 1
    rw [List.countP_append, scanLines_countP_notStyleNote (by decide) (by decide)]
    simp
  · show (scanLines path cfg lines ++
        [Issue.mk path (lineno.getD 0) "syntax" msg]).countP
        (fun i => i.kind == "maintainability") = 0
    rw [List.countP_append, scanLines_countP_notStyleNote (by decide) (by decide)]
    simp

/-- C3: on a decode failure `check_file` returns exactly one issue, at
line 0 with kind `encoding`, running no line-level or structural checks. -/
theorem encoding_failure_single_issue (path : String) (cfg : CheckConfig) :
    check_file path .decode_error cfg = [⟨path, 0, "encoding", "not utf-8"⟩] ∧
    (check_file path .decode_error cfg).length = 1 ∧
    ∀ i ∈ check_file path .decode_error cfg, i.line = 0 ∧ i.kind = "encoding" := by
  refine ⟨rfl, rfl, ?_⟩
  intro i hi
  simp only [check_file, List.mem_singleton] at hi
  subst hi
  exact ⟨rfl, rfl⟩

/-- C4: for a definition with resolvable start and end lines the analyzer
computes the span `end_lineno - lineno + 1` and reports exactly when it
exceeds the maximum: a span of exactly `max_len` yields no issue, a span of
`max_len + 1` yields exactly one `maintainability` issue naming the function
and citing `max_len + 1` versus `max_len`; the analysis is per-definition
(it distributes over concatenation of node lists). -/
theorem function_length_threshold (path nm : String) (a b : Nat) (m : Int) :
    (check_function_lengths path [⟨nm, some a, some b⟩] m =
      if ((b : Int) - (a : Int) + 1) > m then
        [⟨path, a, "maintainability",
          "function " ++ squote ++ nm ++ squote ++ " too long (" ++
            toString ((b : Int) - (a : Int) + 1) ++ " > " ++ toString m ++ ")"⟩]
      else []) ∧
    ((b : Int) - (a : Int) + 1 = m →
      check_function_lengths path [⟨nm, some a, some b⟩] m = []) ∧
    ((b : Int) - (a : Int) + 1 = m + 1 →
      check_function_lengths path [⟨nm, some a, some b⟩] m =
        [⟨path, a, "maintainability",
          "function " ++ squote ++ nm ++ squote ++ " too long (" ++
            toString (m + 1) ++ " > " ++ toString m ++ ")"⟩]) ∧
    (∀ fs1 fs2 : List FuncNode,
      check_function_lengths path (fs1 ++ fs2) m =
        check_function_lengths path fs1 m ++ check_function_lengths path fs2 m) := by
  have hbase : check_function_lengths path [⟨nm, some a, some b⟩] m =
      if ((b : Int) - (a : Int) + 1) > m then
        [⟨path, a, "maintainability",
          "function " ++ squote ++ nm ++ squote ++ " too long (" ++
            toString ((b : Int) - (a : Int) + 1) ++ " > " ++ toString m ++ ")"⟩]
      else [] := by
    simp only [check_function_lengths, List.map_cons, List.map_nil, List.flatten_cons,
      List.flatten_nil, List.append_nil]
  refine ⟨hbase, ?_, ?_, ?_⟩
  · intro h
    rw [hbase, if_neg (by omega)]
  · intro h
    rw [hbase, if_pos (by omega), h]
  · intro fs1 fs2
    simp [check_function_lengths]

/-- Witness for C4 at concrete inputs: a span of exactly 60 lines with
`max_len = 60` is silent; a span of 61 lines is reported. -/
theorem function_length_threshold_witness :
    check_function_lengths "a.py" [⟨"f", some 1, some 60⟩] 60 = [] ∧
    check_function_lengths "a.py" [⟨"g", some 1, some 61⟩] 60 =
      [⟨"a.py", 1, "maintainability",
        "function " ++ squote ++ "g" ++ squote ++ " too long (" ++
          toString ((60 : Int) + 1) ++ " > " ++ toString (60 : Int) ++ ")"⟩] :=
  ⟨(function_length_threshold "a.py" "f" 1 60 60).2.1 (by decide),
   (function_length_threshold "a.py" "g" 1 61 60).2.2.1 (by decide)⟩

/-!
## Claims C5, C6: the per-line rules
-/

/-- C5: the four line rules are evaluated independently — whenever the
condition of a rule holds on a line, its issue is in the output of the per-line pass,
regardless of the other rules; in particular the tab issue is emitted in
addition to any length or trailing-whitespace issue on the same line. -/
theorem line_rules_independent (path : String) (cfg : CheckConfig) (idx : Nat)
    (line : List Char) :
    (line.contains (Char.ofNat 9) = true →
      Issue.mk path idx "style" "tab character" ∈ checkLine path cfg idx line) ∧
    ((line.length : Int) > cfg.max_line_length →
      Issue.mk path idx "style"
          ("line too long (" ++ toString (line.length : Int) ++ " > " ++
            toString cfg.max_line_length ++ ")") ∈ checkLine path cfg idx line) ∧
    (line.getLast? = some ' ' →
      Issue.mk path idx "style" "trailing whitespace" ∈ checkLine path cfg idx line) ∧
    (("TODO".toList <:+: line) ∨ ("FIXME".toList <:+: line) →
      Issue.mk path idx "note" "TODO/FIXME present" ∈ checkLine path cfg idx line) := by
  refine ⟨?_, ?_, ?_, ?_⟩ <;> intro h
  · unfold checkLine
    refine List.mem_append_left _ (List.mem_append_left _ (List.mem_append_left _ ?_))
    rw [if_pos h]
    exact List.mem_singleton.mpr rfl
  · unfold checkLine
    refine List.mem_append_left _ (List.mem_append_left _ (List.mem_append_right _ ?_))
    rw [if_pos h]
    exact List.mem_singleton.mpr rfl
  · unfold checkLine
    refine List.mem_append_left _ (List.mem_append_right _ ?_)
    rw [if_pos ((rstripSpaces_ne_iff line).mpr h)]
    exact List.mem_singleton.mpr rfl
  · unfold checkLine
    refine List.mem_append_right _ ?_
    rw [if_pos h]
    exact List.mem_singleton.mpr rfl

/-- Witness for C5: one line holding a tab, exceeding the maximum length,
carrying trailing spaces and a TODO marker produces all four issues. -/
theorem line_rules_independent_witness :
    Issue.mk "a.py" 1 "style" "tab character" ∈
      checkLine "a.py" ⟨[], ["**/*.py"], [], 4, 60, false⟩ 1 "\tTODO  ".toList ∧
    Issue.mk "a.py" 1 "style"
        ("line too long (" ++ toString (("\tTODO  ".toList.length : Int)) ++ " > " ++
          toString (4 : Int) ++ ")") ∈
      checkLine "a.py" ⟨[], ["**/*.py"], [], 4, 60, false⟩ 1 "\tTODO  ".toList ∧
    Issue.mk "a.py" 1 "style" "trailing whitespace" ∈
      checkLine "a.py" ⟨[], ["**/*.py"], [], 4, 60, false⟩ 1 "\tTODO  ".toList ∧
    Issue.mk "a.py" 1 "note" "TODO/FIXME present" ∈
      checkLine "a.py" ⟨[], ["**/*.py"], [], 4, 60, false⟩ 1 "\tTODO  ".toList := by
  obtain ⟨h1, h2, h3, h4⟩ :=
    line_rules_independent "a.py" ⟨[], ["**/*.py"], [], 4, 60, false⟩ 1 "\tTODO  ".toList
  exact ⟨h1 (by decide), h2 (by decide), h3 (by decide), h4 (by decide)⟩

/-- C6: the trailing-whitespace rule fires exactly on lines whose final
character is a space; a line whose only trailing whitespace is a tab does
not trigger it, while the tab rule still fires for that line. -/
theorem trailing_whitespace_spaces_only (path : String) (cfg : CheckConfig)
    (idx : Nat) (line : List Char) :
    (Issue.mk path idx "style" "trailing whitespace" ∈ checkLine path cfg idx line ↔
      line.getLast? = some ' ') ∧
    (line.getLast? = some (Char.ofNat 9) →
      Issue.mk path idx "style" "trailing whitespace" ∉ checkLine path cfg idx line ∧
      Issue.mk path idx "style" "tab character" ∈ checkLine path cfg idx line) := by
  have hiff : Issue.mk path idx "style" "trailing whitespace" ∈ checkLine path cfg idx line ↔
      line.getLast? = some ' ' := by
    constructor
    · intro h
      unfold checkLine at h
      simp only [List.mem_append] at h
      rcases h with ((h | h) | h) | h
      · split at h
        · simp only [List.mem_singleton, Issue.mk.injEq] at h
          exact absurd h.2.2.2 (by decide)
        · simp at h
      · split at h
        · simp only [List.mem_singleton, Issue.mk.injEq] at h
          exact absurd h.2.2.2.symm
            (long_msg_ne_tw (line.length : Int) cfg.max_line_length)
        · simp at h
      · split at h
        · exact (rstripSpaces_ne_iff line).mp (by assumption)
        · simp at h
      · split at h
        · simp only [List.mem_singleton, Issue.mk.injEq] at h
          exact absurd h.2.2.1 (by decide)
        · simp at h
    · exact (line_rules_independent path cfg idx line).2.2.1
  refine ⟨hiff, ?_⟩
  intro h
  constructor
  · intro hmem
    have := hiff.mp hmem
    rw [h] at this
    simp only [Option.some.injEq] at this
    exact absurd this (by decide)
  · have htab : line.contains (Char.ofNat 9) = true := by
      obtain ⟨hne, hlast⟩ := List.mem_getLast?_eq_getLast h
      rw [List.contains_iff_exists_mem_beq]
      exact ⟨_, hlast ▸ List.getLast_mem hne, by simp⟩
    exact (line_rules_independent path cfg idx line).1 htab

/-- Witness for C6: the line `"a\t"` (only trailing whitespace a tab) gets a
tab issue but no trailing-whitespace issue; the line `"a "` gets one. -/
theorem trailing_whitespace_spaces_only_witness :
    (Issue.mk "a.py" 1 "style" "trailing whitespace" ∉
      checkLine "a.py" ⟨[], ["**/*.py"], [], 100, 60, false⟩ 1 "a\t".toList ∧
     Issue.mk "a.py" 1 "style" "tab character" ∈
      checkLine "a.py" ⟨[], ["**/*.py"], [], 100, 60, false⟩ 1 "a\t".toList) ∧
    Issue.mk "a.py" 2 "style" "trailing whitespace" ∈
      checkLine "a.py" ⟨[], ["**/*.py"], [], 100, 60, false⟩ 2 "a ".toList := by
  constructor
  · exact (trailing_whitespace_spaces_only "a.py" ⟨[], ["**/*.py"], [], 100, 60, false⟩ 1
      "a\t".toList).2 (by decide)
  · exact (trailing_whitespace_spaces_only "a.py" ⟨[], ["**/*.py"], [], 100, 60, false⟩ 2
      "a ".toList).1.mpr (by decide)

/-!
## Claims C7, C9, C10: path filtering and argument resolution
-/

/-- C7: a candidate is excluded iff some segment of its (absolute) path is a
literal member of the exclude list or its root-relative path glob-matches
some exclude entry; consequently an exclude entry occurring as a segment
under root removes the file from the walk no matter what the include
patterns produced. -/
theorem excluded_characterization (cfg : CheckConfig) (parts : List String) :
    (is_excluded parts cfg = true ↔
      (∃ part ∈ parts, part ∈ cfg.exclude) ∨
      (∃ pattern ∈ cfg.exclude, fnmatch (relPath cfg.root parts) pattern = true)) ∧
    (∀ (hits : List FileEntry) (e : FileEntry) (part : String),
      part ∈ cfg.exclude → part ∈ e.rel_parts → e ∉ iter_files cfg hits) := by
  constructor
  · simp [is_excluded, List.any_eq_true]
  · intro hits e part hpx hpe hmem
    unfold iter_files at hmem
    rw [List.mem_filter] at hmem
    have hexc : is_excluded (cfg.root ++ e.rel_parts) cfg = true := by
      unfold is_excluded
      rw [Bool.or_eq_true]
      left
      rw [List.any_eq_true]
      exact ⟨part, List.mem_append_right _ hpe, by simp [hpx]⟩
    rw [hexc] at hmem
    simp at hmem

/-- Witness for C7: under the default excludes, a path with a `build`
segment is excluded and never survives the walk. -/
theorem excluded_characterization_witness :
    is_excluded ["repo", "build", "x.py"]
      ⟨["repo"], ["**/*.py"], default_excludes_sorted, 100, 60, false⟩ = true ∧
    (⟨["build", "mod.py"], true, .decode_error⟩ : FileEntry) ∉
      iter_files ⟨["repo"], ["**/*.py"], default_excludes_sorted, 100, 60, false⟩
        [⟨["build", "mod.py"], true, .decode_error⟩] := by
  constructor
  · exact (excluded_characterization
      ⟨["repo"], ["**/*.py"], default_excludes_sorted, 100, 60, false⟩
      ["repo", "build", "x.py"]).1.mpr (Or.inl ⟨"build", by decide, by decide⟩)
  · exact (excluded_characterization
      ⟨["repo"], ["**/*.py"], default_excludes_sorted, 100, 60, false⟩
      ["repo", "build", "x.py"]).2
      [⟨["build", "mod.py"], true, .decode_error⟩]
      ⟨["build", "mod.py"], true, .decode_error⟩ "build" (by decide) (by decide)

/-- C9: argparse `action="append"` keeps the list defaults, so the resolved
include patterns are always `["**/*.py"]` followed by the user-supplied
values, and
the resolved excludes are always the built-in (sorted) exclude set followed
by the user-supplied values — neither default can be cleared from the
command line. -/
theorem append_keeps_defaults (a : CliArgs) :
    (parse_args a).includePatterns = ["**/*.py"] ++ a.include_args ∧
    "**/*.py" ∈ (parse_args a).includePatterns ∧
    (parse_args a).exclude = default_excludes_sorted ++ a.exclude_args ∧
    ∀ e ∈ default_excludes_sorted, e ∈ (parse_args a).exclude := by
  refine ⟨?_, ?_, ?_, ?_⟩ <;> simp [parse_args, default_excludes_sorted]

/-- Witness for C9: a user asking only for `**/*.txt` still scans
`**/*.py`, and `build` remains excluded on top of a user exclude. -/
theorem append_keeps_defaults_witness :
    (parse_args ⟨["r"], ["**/*.txt"], ["extra"], 100, 60, false⟩).includePatterns =
      ["**/*.py", "**/*.txt"] ∧
    "build" ∈ (parse_args ⟨["r"], ["**/*.txt"], ["extra"], 100, 60, false⟩).exclude := by
  have h := append_keeps_defaults ⟨["r"], ["**/*.txt"], ["extra"], 100, 60, false⟩
  exact ⟨h.1, h.2.2.2 "build" (by decide)⟩

/-- C10: the segment test of `_is_excluded` runs over the whole absolute
path, the segments of the root and its ancestors included, so when any
segment
of the resolved root is named like an exclude entry every candidate of the
walk is excluded and the scan yields nothing. -/
theorem root_ancestor_excludes_everything (cfg : CheckConfig) (part : String)
    (h1 : part ∈ cfg.root) (h2 : part ∈ cfg.exclude) :
    ∀ hits : List FileEntry, iter_files cfg hits = [] := by
  intro hits
  unfold iter_files
  rw [List.filter_eq_nil_iff]
  intro e _
  have hexc : is_excluded (cfg.root ++ e.rel_parts) cfg = true := by
    unfold is_excluded
    rw [Bool.or_eq_true]
    left
    rw [List.any_eq_true]
    exact ⟨part, List.mem_append_left _ h1, by simp [h2]⟩
  rw [hexc]
  simp

/-- Witness for C10: a root living under a directory named `build` (with
the default excludes in force) scans nothing, whatever the glob found. -/
theorem root_ancestor_excludes_everything_witness :
    iter_files ⟨["home", "build", "proj"], ["**/*.py"], default_excludes_sorted, 100, 60, false⟩
      [⟨["pkg", "mod.py"], true, .decode_error⟩] = [] :=
  root_ancestor_excludes_everything
    ⟨["home", "build", "proj"], ["**/*.py"], default_excludes_sorted, 100, 60, false⟩
    "build" (by decide) (by decide) [⟨["pkg", "mod.py"], true, .decode_error⟩]

/-!
## Claims C1, C8: exit codes and the test runner
-/

/-- C1: exit-code precedence of `main`: a missing root returns 2 with no
report rendered (whatever the walk would have found); otherwise a report is
rendered and the code is 1 on any issue, else a present non-zero test
status verbatim, else 0. -/
theorem exit_code_precedence (cfg : CheckConfig) (env : RunEnv) :
    (env.root_exists = false → main_run cfg env = (2, none)) ∧
    (env.root_exists = true → collect_issues cfg env ≠ [] →
      (main_run cfg env).1 = 1) ∧
    (env.root_exists = true → collect_issues cfg env = [] →
      ∀ s : Int, test_status_of cfg env = some s → s ≠ 0 →
        (main_run cfg env).1 = s) ∧
    (env.root_exists = true → collect_issues cfg env = [] →
      (test_status_of cfg env = none ∨ test_status_of cfg env = some 0) →
        (main_run cfg env).1 = 0) ∧
    (env.root_exists = true → (main_run cfg env).2 =
      some (render_markdown (collect_issues cfg env) (test_status_of cfg env))) := by
  refine ⟨?_, ?_, ?_, ?_, ?_⟩
  · intro h
    simp [main_run, h]
  · intro hroot hissues
    simp [main_run, hroot, hissues]
  · intro hroot hissues s hs hs0
    simp [main_run, hroot, hissues, hs, hs0]
  · intro hroot hissues hts
    rcases hts with h | h <;> simp [main_run, hroot, hissues, h]
  · intro hroot
    simp [main_run, hroot]

/-- Witness for C1: a run whose root is missing exits 2 with no report; a
run over an empty tree with tests failing with status 5 exits 5. -/
theorem exit_code_precedence_witness :
    main_run ⟨["r"], ["**/*.py"], [], 100, 60, false⟩ ⟨false, [], false, 0⟩ = (2, none) ∧
    (main_run ⟨["r"], ["**/*.py"], [], 100, 60, true⟩ ⟨true, [], true, 5⟩).1 = 5 := by
  constructor
  · exact (exit_code_precedence ⟨["r"], ["**/*.py"], [], 100, 60, false⟩
      ⟨false, [], false, 0⟩).1 rfl
  · exact (exit_code_precedence ⟨["r"], ["**/*.py"], [], 100, 60, true⟩
      ⟨true, [], true, 5⟩).2.2.1 rfl rfl 5 rfl (by decide)

/-- C8: with `--run-tests` and no tests detected the test status is 0
(whatever exit code pytest would have produced — it is not invoked), the
report says `Tests: exit code 0`, and with no issues the run exits 0;
without `--run-tests` the status is absent, the report says
`Tests: not run`, and the exit code depends only on the issue count. -/
theorem run_tests_status (cfg : CheckConfig) (env : RunEnv) :
    (cfg.run_tests = true → env.has_tests = false →
      test_status_of cfg env = some 0 ∧
      "- Tests: exit code 0" ∈
        render_lines (collect_issues cfg env) (test_status_of cfg env) ∧
      (env.root_exists = true → collect_issues cfg env = [] →
        (main_run cfg env).1 = 0)) ∧
    (cfg.run_tests = false →
      test_status_of cfg env = none ∧
      "- Tests: not run" ∈
        render_lines (collect_issues cfg env) (test_status_of cfg env) ∧
      (env.root_exists = true →
        (main_run cfg env).1 = if collect_issues cfg env = [] then 0 else 1)) := by
  constructor
  · intro hrun htests
    have hts : test_status_of cfg env = some 0 := by
      simp [test_status_of, hrun, htests]
    refine ⟨hts, ?_, ?_⟩
    · rw [hts]
      have h0 : "- Tests: exit code " ++ toString (0 : Int) = "- Tests: exit code 0" := by
        decide
      unfold render_lines
      split
      · simp_all
      · rename_i s heq
        have hs : (0 : Int) = s := by simpa using heq
        subst hs
        split <;> simp [h0]
    · intro hroot hissues
      simp [main_run, hroot, hissues, hts]
  · intro hrun
    have hts : test_status_of cfg env = none := by
      simp [test_status_of, hrun]
    refine ⟨hts, ?_, ?_⟩
    · rw [hts]
      unfold render_lines
      split
      · split <;> simp
      · simp_all
    · intro hroot
      by_cases hissues : collect_issues cfg env = []
      · simp [main_run, hroot, hissues, hts]
      · simp [main_run, hroot, hissues, hts]

/-- Witness for C8: `--run-tests` over an empty tree with no tests exits 0
and reports `Tests: exit code 0`; without `--run-tests` the report says
`Tests: not run`. -/
theorem run_tests_status_witness :
    test_status_of ⟨["r"], ["**/*.py"], [], 100, 60, true⟩ ⟨true, [], false, 7⟩ = some 0 ∧
    (main_run ⟨["r"], ["**/*.py"], [], 100, 60, true⟩ ⟨true, [], false, 7⟩).1 = 0 ∧
    "- Tests: exit code 0" ∈
      render_lines
        (collect_issues ⟨["r"], ["**/*.py"], [], 100, 60, true⟩ ⟨true, [], false, 7⟩)
        (test_status_of ⟨["r"], ["**/*.py"], [], 100, 60, true⟩ ⟨true, [], false, 7⟩) ∧
    "- Tests: not run" ∈
      render_lines
        (collect_issues ⟨["r"], ["**/*.py"], [], 100, 60, false⟩ ⟨true, [], false, 7⟩)
        (test_status_of ⟨["r"], ["**/*.py"], [], 100, 60, false⟩ ⟨true, [], false, 7⟩) := by
  have h1 := run_tests_status ⟨["r"], ["**/*.py"], [], 100, 60, true⟩ ⟨true, [], false, 7⟩
  have h2 := run_tests_status ⟨["r"], ["**/*.py"], [], 100, 60, false⟩ ⟨true, [], false, 7⟩
  obtain ⟨ha, hb, hc⟩ := h1.1 rfl rfl
  exact ⟨ha, hc rfl rfl, hb, (h2.2 rfl).2.1⟩

/-- Witness for C3: a concrete undecodable file yields precisely the single
file-level encoding issue. -/
theorem encoding_failure_single_issue_witness :
    check_file "b.bin" .decode_error ⟨["r"], ["**/*.py"], [], 100, 60, false⟩ =
      [⟨"b.bin", 0, "encoding", "not utf-8"⟩] ∧
    (Issue.mk "b.bin" 0 "encoding" "not utf-8").line = 0 ∧
    (Issue.mk "b.bin" 0 "encoding" "not utf-8").kind = "encoding" := by
  have h := encoding_failure_single_issue "b.bin" ⟨["r"], ["**/*.py"], [], 100, 60, false⟩
  refine ⟨h.1, h.2.2 ⟨"b.bin", 0, "encoding", "not utf-8"⟩ ?_⟩
  rw [h.1]
  exact List.mem_singleton.mpr rfl
